import Mathlib

/-!
Shallow embedding of `src/main.rs` of the `chat_app_rust` repository.

Modelling conventions:
* Rust strings are modelled as lists of characters (`Str`).
* The SQLite `messages` table is modelled as a list of `MessageRecord`s kept in
  insertion order; `AUTOINCREMENT` ids are assigned by `appendRecord` as
  `length + 1`, so ids are `1, 2, 3, …` in insertion order and `ORDER BY id
  DESC` coincides with `List.reverse` of the store.
* Each connected session's outbound mpsc channel is modelled as a queue of
  delivered frame texts; the shared `user_senders : HashMap<String, Sender>`
  becomes an association list from username to the index of that queue.
* The wall clock (`Local::now()` formatted at line 126) is passed to the
  frame-processing function as an explicit `now : Str` argument, one per
  received frame.
-/

/-- Rust `String` / `&str`, modelled as a list of characters. -/
abbrev Str := List Char

/-- One row of the `messages` table
(`id INTEGER PRIMARY KEY AUTOINCREMENT, from_user TEXT NOT NULL, to_user TEXT,
content TEXT NOT NULL, timestamp TEXT NOT NULL, is_private INTEGER NOT NULL`),
see lines 79-89 of `src/main.rs`. `is_private` is stored as `0` / `1` in
SQLite and is modelled as `Bool`; `to_user` is a nullable column. -/
structure MessageRecord where
  id : Nat
  from_user : Str
  to_user : Option Str
  content : Str
  timestamp : Str
  is_private : Bool
deriving DecidableEq

/-- The persisted message log (the `messages` table), in insertion order. -/
abbrev Store := List MessageRecord

/-- The non-`id` columns of a row: what an `INSERT INTO messages` statement
supplies, before SQLite assigns the auto-increment `id`. -/
structure RecordData where
  from_user : Str
  to_user : Option Str
  content : Str
  timestamp : Str
  is_private : Bool
deriving DecidableEq

/-- Forget the auto-assigned `id` of a stored row. -/
def recordData (r : MessageRecord) : RecordData :=
  ⟨r.from_user, r.to_user, r.content, r.timestamp, r.is_private⟩

/-- One `INSERT INTO messages … VALUES (…)`: SQLite appends a row and
auto-assigns the next id (for a fresh table: `1, 2, 3, …`). -/
def appendRecord (st : Store) (d : RecordData) : Store :=
  st ++ [⟨st.length + 1, d.from_user, d.to_user, d.content, d.timestamp, d.is_private⟩]

/-- Insert each datum in order into an initially empty table
(pure-model counterpart of inserting 15 records into a fresh database). -/
def insertAll (ds : List RecordData) : Store :=
  ds.foldl appendRecord []

/-- The `ChatMessage` enum of `src/main.rs` lines 26-31. -/
inductive ChatMessage where
  | Public (from_user content timestamp : Str)
  | Private (from_user to_user content timestamp : Str)
  | System (msg : Str)
deriving DecidableEq

/-- `ChatMessage::to_string`, lines 33-44 of `src/main.rs`:
`Public → "[<timestamp>][<from>]: <content>"`,
`Private → "[<timestamp>][Private from <from> to <to>]: <content>"`,
`System → the message verbatim`. -/
def ChatMessage.to_string : ChatMessage → Str
  | .Public f c ts =>
      ("[".toList) ++ ts ++ ("][".toList) ++ f ++ ("]: ".toList) ++ c
  | .Private f t c ts =>
      ("[".toList) ++ ts ++ ("][Private from ".toList) ++ f ++ (" to ".toList) ++ t
        ++ ("]: ".toList) ++ c
  | .System m => m

/-- `ChatMessage::log_to_db`, lines 46-62 of `src/main.rs`:
`Public` rows are inserted with `to_user = NULL, is_private = 0`,
`Private` rows with `to_user = <to>, is_private = 1`,
and the catch-all arm `_ => {}` makes `System` a no-op. -/
def ChatMessage.log_to_db : ChatMessage → Store → Store
  | .Public f c ts, st => appendRecord st ⟨f, none, c, ts, false⟩
  | .Private f t c ts, st => appendRecord st ⟨f, some t, c, ts, true⟩
  | .System _, st => st

/-- The shared `user_senders` map (line 93): username to the index of that
session's outbound queue. -/
abbrev Registry := List (Str × Nat)

/-- `HashMap::get` (lines 139 and 143): the handle currently registered for a
username, if any. -/
def Registry.get (reg : Registry) (u : Str) : Option Nat :=
  (reg.find? (fun p => p.1 == u)).map (fun p => p.2)

/-- `HashMap::insert` (line 113): registers the handle, overwriting any
existing entry for that username. -/
def Registry.insert (reg : Registry) (u : Str) (c : Nat) : Registry :=
  (reg.filter (fun p => !(p.1 == u))) ++ [(u, c)]

/-- `HashMap::remove` (line 159): unregisters the username; a no-op if the
username is not present. -/
def Registry.remove (reg : Registry) (u : Str) : Registry :=
  reg.filter (fun p => !(p.1 == u))

/-- The server state visible to one frame-processing step of `run_server`:
the registry, the per-session outbound queues (each queue lists the frame
texts delivered to it, in order), the server process's standard output
(`println!` at line 153 appends to it), and the message log. -/
structure ServerState where
  registry : Registry
  queues : List (List Str)
  stdout : List Str
  store : Store
deriving DecidableEq

/-- `tx.send(Message::Text(text))` on the unbounded channel of queue `i`:
appends the text to that queue; an invalid handle (index out of range) is a
silently dropped send, matching the ignored `Result` of `send`. -/
def sendTo (qs : List (List Str)) (i : Nat) (text : Str) : List (List Str) :=
  qs.set i (qs.getD i [] ++ [text])

/-- Rust `str::splitn(2, sep)` collected into parts: splits at the first
occurrence of `sep` only. The second component is `none` when `sep` does not
occur (so the collected vector has a single element). -/
def splitFirst : Str → Char → Str × Option Str
  | [], _ => ([], none)
  | c :: rest, sep =>
      if c = sep then ([], some rest)
      else
        let r := splitFirst rest sep
        (c :: r.1, r.2)

/-- Rust `str::trim`: removes whitespace from both ends (restricted here to
the ASCII whitespace recognised by `Char.isWhitespace`; every input appearing
in the development uses plain spaces). -/
def rustTrim (s : Str) : Str :=
  ((s.dropWhile Char.isWhitespace).reverse.dropWhile Char.isWhitespace).reverse

/-- A websocket message as seen by the server (`tungstenite::Message`):
either a text frame or some other (binary etc.) frame. -/
inductive WsMessage where
  | Text (s : Str)
  | Other
deriving DecidableEq

/-- Lines 104-110 of `src/main.rs`: the first inbound item must be
`Some(Ok(Message::Text(name)))`; the name is consumed verbatim (no
validation, no trimming, no emptiness check). Anything else aborts the
session before registration. The `Err` payload of the websocket read is
modelled as `Unit`. -/
def acceptUsername : Option (Except Unit WsMessage) → Option Str
  | some (.ok (.Text name)) => some name
  | _ => none

/-- Lines 124-155 of `src/main.rs`: processing of one inbound text frame of
an Active session.
* If the text starts with `"/msg "`, the remainder is split once at the first
  space; with fewer than two parts the frame is silently dropped. Otherwise a
  `Private` event is built from the trimmed target and body, logged to the
  database (line 138, before the lookup), and then: if the target is
  registered the rendered event is sent to the target's queue; if not, a
  `System` error notice is sent to the sender's own queue (if the sender is
  still registered) and nothing else happens.
* Any other text becomes a `Public` event, which is logged to the database
  and printed to the server's stdout (line 153); it is not sent to any
  queue. -/
def processFrame (username text now : Str) (s : ServerState) : ServerState :=
  if ("/msg ".toList).isPrefixOf text then
    match splitFirst (text.drop 5) ' ' with
    | (t0, some b0) =>
        let target := rustTrim t0
        let message := rustTrim b0
        let chat := ChatMessage.Private username target message now
        let st2 := chat.log_to_db s.store
        match Registry.get s.registry target with
        | some i => ⟨s.registry, sendTo s.queues i chat.to_string, s.stdout, st2⟩
        | none =>
            let err := ChatMessage.System
              (("[Error] User '".toList) ++ target ++ ("' not found.".toList))
            match Registry.get s.registry username with
            | some j => ⟨s.registry, sendTo s.queues j err.to_string, s.stdout, st2⟩
            | none => ⟨s.registry, s.queues, s.stdout, st2⟩
    | (_, none) => s
  else
    let chat := ChatMessage.Public username text now
    ⟨s.registry, s.queues, s.stdout ++ [chat.to_string], chat.log_to_db s.store⟩

/-- A sequence of inbound text frames of one session, each paired with the
timestamp the router assigns at its receipt, processed in order. -/
def processFrames (username : Str) (frames : List (Str × Str)) (s : ServerState) : ServerState :=
  frames.foldl (fun st p => processFrame username p.1 p.2 st) s

/-- The query of the `/history` client command (line 199):
`SELECT … FROM messages ORDER BY id DESC LIMIT 10`. Since `appendRecord`
assigns strictly increasing ids in insertion order, descending-id order is
the reverse of the store. -/
def recentHistory (st : Store) : List MessageRecord :=
  st.reverse.take 10

/-- ASCII lower-casing of one character, the case-folding SQLite's default
`LIKE` applies (it is case-insensitive for ASCII only). -/
def asciiLower (c : Char) : Char :=
  if 'A' ≤ c ∧ c ≤ 'Z' then Char.ofNat (c.toNat + 32) else c

/-- SQLite `LIKE`, fuelled so that the function is structurally recursive
(kernel-computable). `'%'` matches any sequence, `'_'` any single character,
and ordinary characters compare ASCII-case-insensitively (SQLite's default
`LIKE` is case-insensitive for ASCII). Sufficient fuel is
`pattern.length + string.length + 1`; `likeMatch` supplies it. -/
def likeMatchF : Nat → Str → Str → Bool
  | 0, _, _ => false
  | _ + 1, [], s => s.isEmpty
  | fuel + 1, p :: ps, s =>
      if p = '%' then
        (likeMatchF fuel ps s ||
          (match s with
           | [] => false
           | _ :: s2 => likeMatchF fuel (p :: ps) s2))
      else
        (match s with
         | [] => false
         | c :: s2 => (p == '_' || asciiLower p == asciiLower c) && likeMatchF fuel ps s2)

/-- SQLite `LIKE pattern` applied to a string. -/
def likeMatch (p s : Str) : Bool :=
  likeMatchF (p.length + s.length + 1) p s

/-- The query of the `/search <keyword>` client command (lines 222-223):
`SELECT … FROM messages WHERE content LIKE '%<keyword>%' ORDER BY id DESC
LIMIT 10`, the keyword being interpolated into the pattern unescaped. -/
def searchMessages (st : Store) (keyword : Str) : List MessageRecord :=
  ((st.filter (fun r => likeMatch ('%' :: (keyword ++ ['%'])) r.content)).reverse).take 10

/-- The write task of a session, lines 115-122 of `src/main.rs`
(`while let Some(msg) = rx_user.recv().await { if ws_sender.send(msg) errs
{ break } }`), run from a state in which no further sends will arrive:
`buffered` are the messages still queued, `liveSenders` the number of
`UnboundedSender` handles for this queue still alive, and `sockOk` whether
writes to this client's socket succeed. Returns `true` exactly when the loop
terminates: it drains the buffer (breaking out on the first failed socket
write), and once the buffer is empty `recv()` returns `None` — letting the
loop exit — only if every sender has been dropped; otherwise `recv()`
suspends forever. -/
def drainRun : List Str → Nat → Bool → Bool
  | [], senders, _ => senders == 0
  | _ :: rest, senders, sockOk => if sockOk then drainRun rest senders sockOk else true

/-- Lines 156-159 of `src/main.rs`, the teardown after the read loop ends:
line 158 `private_sender_task.await` (which returns only if the write task's
loop terminates) and only then line 159 `user_senders.remove(&username)`.
The session's only `UnboundedSender` was moved into the registry at line 113,
so — absent a concurrent registration under the same username — the queue
has one live sender exactly when the username is still registered. Returns
the registry after a completed teardown, or `none` when the `await` of line
158 never returns. -/
def sessionTeardown (reg : Registry) (u : Str) (buffered : List Str) (sockOk : Bool) :
    Option Registry :=
  if drainRun buffered (if (Registry.get reg u).isSome then 1 else 0) sockOk then
    some (Registry.remove reg u)
  else
    none

/-! ## Helper lemmas about the router -/

theorem getD_set_self {α : Type} (l : List α) (i : Nat) (x d : α) (h : i < l.length) :
    (l.set i x).getD i d = x := by
  rw [List.getD_eq_getElem?_getD, List.getElem?_set]
  simp [h]

theorem getD_set_ne {α : Type} (l : List α) (i j : Nat) (x d : α) (h : j ≠ i) :
    (l.set i x).getD j d = l.getD j d := by
  rw [List.getD_eq_getElem?_getD, List.getElem?_set, List.getD_eq_getElem?_getD]
  have hne : ¬ (i = j) := fun he => h he.symm
  simp [hne]

theorem processFrame_public (u text now : Str) (s : ServerState)
    (h : ("/msg ".toList).isPrefixOf text = false) :
    processFrame u text now s =
      ⟨s.registry, s.queues,
       s.stdout ++ [ChatMessage.to_string (.Public u text now)],
       s.store ++ [⟨s.store.length + 1, u, none, text, now, false⟩]⟩ := by
  unfold processFrame
  rw [h]
  simp [ChatMessage.log_to_db, appendRecord]

theorem processFrame_private_found (u text now t0 b0 : Str) (s : ServerState) (i : Nat)
    (hpre : ("/msg ".toList).isPrefixOf text = true)
    (hsplit : splitFirst (text.drop 5) ' ' = (t0, some b0))
    (hget : Registry.get s.registry (rustTrim t0) = some i) :
    processFrame u text now s =
      ⟨s.registry,
       sendTo s.queues i (ChatMessage.to_string (.Private u (rustTrim t0) (rustTrim b0) now)),
       s.stdout,
       s.store ++ [⟨s.store.length + 1, u, some (rustTrim t0), rustTrim b0, now, true⟩]⟩ := by
  unfold processFrame
  rw [hpre, hsplit]
  simp [hget, ChatMessage.log_to_db, appendRecord]

theorem processFrame_private_absent (u text now t0 b0 : Str) (s : ServerState) (j : Nat)
    (hpre : ("/msg ".toList).isPrefixOf text = true)
    (hsplit : splitFirst (text.drop 5) ' ' = (t0, some b0))
    (hget : Registry.get s.registry (rustTrim t0) = none)
    (hself : Registry.get s.registry u = some j) :
    processFrame u text now s =
      ⟨s.registry,
       sendTo s.queues j (ChatMessage.to_string
         (.System (("[Error] User '".toList) ++ rustTrim t0 ++ ("' not found.".toList)))),
       s.stdout,
       s.store ++ [⟨s.store.length + 1, u, some (rustTrim t0), rustTrim b0, now, true⟩]⟩ := by
  unfold processFrame
  rw [hpre, hsplit]
  simp [hget, hself, ChatMessage.log_to_db, appendRecord]

/-! ## Claim theorems -/

/-- Claim C9 (confirmed): persisting a `System` event is a no-op — for every
`System` event and every store state, `log_to_db` applied to a `System` event
leaves the message log exactly unchanged (the `_ => {}` arm of lines 46-62). -/
theorem C9_system_never_persisted (m : Str) (st : Store) :
    ChatMessage.log_to_db (.System m) st = st := rfl

/-- Claim C4 (code_bug): the teardown of lines 156-159 awaits the write task
(line 158) before removing the username from the registry (line 159). The
registry entry holds the session's only sender, so with an empty outbound
queue and a healthy socket the write task's `recv()` suspends forever and the
`await` never returns: teardown never completes and the username is never
unregistered (first conjunct). Had the sender been dropped first — the queue
closed — the write task would terminate as the claim describes (second
conjunct). The only teardown the code can complete is via a failed socket
write (third conjunct). -/
theorem C4_teardown_deadlock :
    sessionTeardown [(("alice".toList), 0)] ("alice".toList) [] true = none ∧
    drainRun [] 0 true = true ∧
    sessionTeardown [(("alice".toList), 0)] ("alice".toList) [("x".toList)] false =
      some [] := by
  decide

/-- Claim C1 counterexample: with "alice" registered (queue 0, empty), an
inbound public frame "hello" leaves every outbound queue untouched — the
rendered text is not delivered to the sender's own registered handle (it is
only persisted and printed to the server's stdout), refuting the claimed
broadcast to every registered handle. -/
theorem C1_counterexample :
    Registry.get [(("alice".toList), 0)] ("alice".toList) = some 0 ∧
    (processFrame ("alice".toList) ("hello".toList) ("T1".toList)
        ⟨[(("alice".toList), 0)], [[]], [], []⟩).queues = [[]] ∧
    (processFrame ("alice".toList) ("hello".toList) ("T1".toList)
        ⟨[(("alice".toList), 0)], [[]], [], []⟩).stdout =
      [("[T1][alice]: hello".toList)] := by
  decide

/-- Claim C1 (corrected): an inbound public text frame is persisted and its
rendered text is printed to the server's standard output, in the order the
sender sent its frames — but it is delivered to no registered outbound
handle, not even the sender's own (the outbound channels carry only private
messages and error notices). -/
theorem C1_public_frames_server_side (u text now : Str) (frames : List (Str × Str))
    (s : ServerState)
    (h : ("/msg ".toList).isPrefixOf text = false)
    (hall : ∀ p ∈ frames, ("/msg ".toList).isPrefixOf p.1 = false) :
    (processFrame u text now s).queues = s.queues ∧
    (processFrame u text now s).registry = s.registry ∧
    (processFrame u text now s).stdout =
      s.stdout ++ [ChatMessage.to_string (.Public u text now)] ∧
    (processFrame u text now s).store =
      s.store ++ [⟨s.store.length + 1, u, none, text, now, false⟩] ∧
    (processFrames u frames s).store.map (fun r => (r.from_user, r.content, r.timestamp)) =
      s.store.map (fun r => (r.from_user, r.content, r.timestamp)) ++
        frames.map (fun p => (u, p.1, p.2)) := by
  have hmain := processFrame_public u text now s h
  refine ⟨by rw [hmain], by rw [hmain], by rw [hmain], by rw [hmain], ?_⟩
  clear hmain h
  revert hall
  induction frames generalizing s with
  | nil => intro _; simp [processFrames]
  | cons p ps ih =>
      intro hall
      have hp : ("/msg ".toList).isPrefixOf p.1 = false := hall p (List.mem_cons_self p ps)
      have hps : ∀ q ∈ ps, ("/msg ".toList).isPrefixOf q.1 = false :=
        fun q hq => hall q (List.mem_cons_of_mem p hq)
      have hstep : processFrames u (p :: ps) s = processFrames u ps (processFrame u p.1 p.2 s) := rfl
      rw [hstep, ih (processFrame u p.1 p.2 s) hps, processFrame_public u p.1 p.2 s hp]
      simp [List.map_append]

/-- Witness for C1: the amended statement at a concrete input. -/
theorem C1_witness :
    (("/msg ".toList).isPrefixOf ("hi all".toList) = false ∧
      (∀ p ∈ [((("one".toList) : Str), (("T2".toList) : Str))],
        ("/msg ".toList).isPrefixOf p.1 = false)) ∧
    ((processFrame ("alice".toList) ("hi all".toList) ("T1".toList)
        ⟨[(("alice".toList), 0)], [[]], [], []⟩).queues = [[]] ∧
      (processFrame ("alice".toList) ("hi all".toList) ("T1".toList)
        ⟨[(("alice".toList), 0)], [[]], [], []⟩).registry = [(("alice".toList), 0)] ∧
      (processFrame ("alice".toList) ("hi all".toList) ("T1".toList)
        ⟨[(("alice".toList), 0)], [[]], [], []⟩).stdout =
        [] ++ [ChatMessage.to_string (.Public ("alice".toList) ("hi all".toList) ("T1".toList))] ∧
      (processFrame ("alice".toList) ("hi all".toList) ("T1".toList)
        ⟨[(("alice".toList), 0)], [[]], [], []⟩).store =
        ([] : Store) ++
          [⟨List.length ([] : Store) + 1, ("alice".toList), none, ("hi all".toList),
            ("T1".toList), false⟩] ∧
      (processFrames ("alice".toList) [((("one".toList) : Str), (("T2".toList) : Str))]
          ⟨[(("alice".toList), 0)], [[]], [], []⟩).store.map
            (fun r => (r.from_user, r.content, r.timestamp)) =
        ([] : Store).map (fun r => (r.from_user, r.content, r.timestamp)) ++
          [((("one".toList) : Str), (("T2".toList) : Str))].map
            (fun p => (("alice".toList), p.1, p.2))) :=
  ⟨⟨by decide, by decide⟩,
    C1_public_frames_server_side ("alice".toList) ("hi all".toList) ("T1".toList)
      [((("one".toList) : Str), (("T2".toList) : Str))]
      ⟨[(("alice".toList), 0)], [[]], [], []⟩ (by decide) (by decide)⟩

/-- Claim C10 (confirmed): an inbound text frame that does not begin with the
exact five-character prefix "/msg " — including the bare "/msg" with no
trailing space and differently-cased variants like "/MSG bob hi" — is routed
as a Public event whose content is the entire frame text verbatim, persisted
with `is_private = 0` and `to_user` NULL; the registry and the outbound
queues are untouched. -/
theorem C10_non_msg_frame_is_public (u text now : Str) (s : ServerState)
    (h : ("/msg ".toList).isPrefixOf text = false) :
    (processFrame u text now s).store =
      s.store ++ [⟨s.store.length + 1, u, none, text, now, false⟩] ∧
    (processFrame u text now s).queues = s.queues ∧
    (processFrame u text now s).registry = s.registry := by
  have hmain := processFrame_public u text now s h
  exact ⟨by rw [hmain], by rw [hmain], by rw [hmain]⟩

/-- Witness for C10: the theorem applied at the bare "/msg" frame and at the
differently-cased "/MSG bob hi" frame. -/
theorem C10_witness :
    (("/msg ".toList).isPrefixOf ("/msg".toList) = false ∧
      (processFrame ("alice".toList) ("/msg".toList) ("T1".toList)
          ⟨[], [], [], []⟩).store =
        ([] : Store) ++
          [⟨List.length ([] : Store) + 1, ("alice".toList), none, ("/msg".toList),
            ("T1".toList), false⟩] ∧
      (processFrame ("alice".toList) ("/msg".toList) ("T1".toList)
          ⟨[], [], [], []⟩).queues = [] ∧
      (processFrame ("alice".toList) ("/msg".toList) ("T1".toList)
          ⟨[], [], [], []⟩).registry = []) ∧
    (("/msg ".toList).isPrefixOf ("/MSG bob hi".toList) = false ∧
      (processFrame ("alice".toList) ("/MSG bob hi".toList) ("T1".toList)
          ⟨[], [], [], []⟩).store =
        ([] : Store) ++
          [⟨List.length ([] : Store) + 1, ("alice".toList), none, ("/MSG bob hi".toList),
            ("T1".toList), false⟩] ∧
      (processFrame ("alice".toList) ("/MSG bob hi".toList) ("T1".toList)
          ⟨[], [], [], []⟩).queues = [] ∧
      (processFrame ("alice".toList) ("/MSG bob hi".toList) ("T1".toList)
          ⟨[], [], [], []⟩).registry = []) :=
  ⟨⟨by decide,
    C10_non_msg_frame_is_public ("alice".toList) ("/msg".toList) ("T1".toList)
      ⟨[], [], [], []⟩ (by decide)⟩,
   ⟨by decide,
    C10_non_msg_frame_is_public ("alice".toList) ("/MSG bob hi".toList) ("T1".toList)
      ⟨[], [], [], []⟩ (by decide)⟩⟩

/-- Claim C3 (confirmed): a `/msg <target> <body>` frame whose (trimmed)
target is registered is persisted as a Private record (`is_private = 1`,
`to_user = target`) and its rendered text
"[<timestamp>][Private from <from> to <to>]: <content>" is appended to the
target's outbound queue only: every other queue is unchanged, and so are the
registry and the server stdout. -/
theorem C3_private_delivered_to_target_only (u text now t0 b0 : Str) (s : ServerState)
    (i : Nat)
    (hpre : ("/msg ".toList).isPrefixOf text = true)
    (hsplit : splitFirst (text.drop 5) ' ' = (t0, some b0))
    (hget : Registry.get s.registry (rustTrim t0) = some i)
    (hi : i < s.queues.length) :
    (processFrame u text now s).store =
      s.store ++ [⟨s.store.length + 1, u, some (rustTrim t0), rustTrim b0, now, true⟩] ∧
    (processFrame u text now s).queues.getD i [] =
      s.queues.getD i [] ++
        [ChatMessage.to_string (.Private u (rustTrim t0) (rustTrim b0) now)] ∧
    (∀ j, j ≠ i → (processFrame u text now s).queues.getD j [] = s.queues.getD j []) ∧
    (processFrame u text now s).registry = s.registry ∧
    (processFrame u text now s).stdout = s.stdout := by
  rw [processFrame_private_found u text now t0 b0 s i hpre hsplit hget]
  refine ⟨rfl, ?_, ?_, rfl, rfl⟩
  · show (sendTo s.queues i _).getD i [] = _
    unfold sendTo
    exact getD_set_self _ _ _ _ hi
  · intro j hj
    show (sendTo s.queues i _).getD j [] = _
    unfold sendTo
    exact getD_set_ne _ _ _ _ _ hj

/-- Witness for C3: alice sends "/msg bob hi" while bob is registered at
queue 0; bob's queue receives exactly the rendered private message. -/
theorem C3_witness :
    (("/msg ".toList).isPrefixOf ("/msg bob hi".toList) = true ∧
      splitFirst (("/msg bob hi".toList).drop 5) ' ' = (("bob".toList), some ("hi".toList)) ∧
      Registry.get [(("bob".toList), 0)] (rustTrim ("bob".toList)) = some 0 ∧
      0 < (([[]] : List (List Str))).length) ∧
    ((processFrame ("alice".toList) ("/msg bob hi".toList) ("T1".toList)
        ⟨[(("bob".toList), 0)], [[]], [], []⟩).store =
      ([] : Store) ++
        [⟨List.length ([] : Store) + 1, ("alice".toList), some (rustTrim ("bob".toList)),
          rustTrim ("hi".toList), ("T1".toList), true⟩] ∧
     (processFrame ("alice".toList) ("/msg bob hi".toList) ("T1".toList)
        ⟨[(("bob".toList), 0)], [[]], [], []⟩).queues.getD 0 [] =
      ([[]] : List (List Str)).getD 0 [] ++
        [ChatMessage.to_string (.Private ("alice".toList) (rustTrim ("bob".toList))
          (rustTrim ("hi".toList)) ("T1".toList))] ∧
     (∀ j, j ≠ 0 →
        (processFrame ("alice".toList) ("/msg bob hi".toList) ("T1".toList)
          ⟨[(("bob".toList), 0)], [[]], [], []⟩).queues.getD j [] =
        ([[]] : List (List Str)).getD j []) ∧
     (processFrame ("alice".toList) ("/msg bob hi".toList) ("T1".toList)
        ⟨[(("bob".toList), 0)], [[]], [], []⟩).registry = [(("bob".toList), 0)] ∧
     (processFrame ("alice".toList) ("/msg bob hi".toList) ("T1".toList)
        ⟨[(("bob".toList), 0)], [[]], [], []⟩).stdout = []) :=
  ⟨⟨by decide, by decide, by decide, by decide⟩,
   C3_private_delivered_to_target_only ("alice".toList) ("/msg bob hi".toList)
     ("T1".toList) ("bob".toList) ("hi".toList)
     ⟨[(("bob".toList), 0)], [[]], [], []⟩ 0
     (by decide) (by decide) (by decide) (by decide)⟩

/-- Claim C2 counterexample: alice sends "/msg bob hi" while bob is not
registered. The sender does receive exactly one System notice on her own
queue, but the store does not stay unchanged: the Private event was already
persisted at line 138, before the lookup — a MessageRecord IS created for
this send, refuting the claim. -/
theorem C2_counterexample :
    Registry.get [(("alice".toList), 0)] ("bob".toList) = none ∧
    (processFrame ("alice".toList) ("/msg bob hi".toList) ("T1".toList)
        ⟨[(("alice".toList), 0)], [[]], [], []⟩).store =
      [⟨1, ("alice".toList), some ("bob".toList), ("hi".toList), ("T1".toList), true⟩] ∧
    (processFrame ("alice".toList) ("/msg bob hi".toList) ("T1".toList)
        ⟨[(("alice".toList), 0)], [[]], [], []⟩).queues =
      [[("[Error] User 'bob' not found.".toList)]] := by
  decide

/-- Claim C2 (corrected): a `/msg <target> <body>` frame whose (trimmed)
target is not registered at lookup time yields exactly one System event with
text "[Error] User '<target>' not found." appended to the sender's own
outbound queue and to no other queue — but the persistence store does not
stay unchanged: the Private event is logged (line 138) before the lookup, so
the store gains one record with `is_private = 1` and `to_user = target`. -/
theorem C2_absent_target_notice_and_persisted (u text now t0 b0 : Str) (s : ServerState)
    (j : Nat)
    (hpre : ("/msg ".toList).isPrefixOf text = true)
    (hsplit : splitFirst (text.drop 5) ' ' = (t0, some b0))
    (hget : Registry.get s.registry (rustTrim t0) = none)
    (hself : Registry.get s.registry u = some j)
    (hj : j < s.queues.length) :
    (processFrame u text now s).store =
      s.store ++ [⟨s.store.length + 1, u, some (rustTrim t0), rustTrim b0, now, true⟩] ∧
    (processFrame u text now s).queues.getD j [] =
      s.queues.getD j [] ++
        [ChatMessage.to_string (.System
          (("[Error] User '".toList) ++ rustTrim t0 ++ ("' not found.".toList)))] ∧
    (∀ k, k ≠ j → (processFrame u text now s).queues.getD k [] = s.queues.getD k []) ∧
    (processFrame u text now s).registry = s.registry ∧
    (processFrame u text now s).stdout = s.stdout := by
  rw [processFrame_private_absent u text now t0 b0 s j hpre hsplit hget hself]
  refine ⟨rfl, ?_, ?_, rfl, rfl⟩
  · show (sendTo s.queues j _).getD j [] = _
    unfold sendTo
    exact getD_set_self _ _ _ _ hj
  · intro k hk
    show (sendTo s.queues j _).getD k [] = _
    unfold sendTo
    exact getD_set_ne _ _ _ _ _ hk

/-- Witness for C2: the amended statement at the counterexample's input. -/
theorem C2_witness :
    (("/msg ".toList).isPrefixOf ("/msg bob hi".toList) = true ∧
      splitFirst (("/msg bob hi".toList).drop 5) ' ' = (("bob".toList), some ("hi".toList)) ∧
      Registry.get [(("alice".toList), 0)] (rustTrim ("bob".toList)) = none ∧
      Registry.get [(("alice".toList), 0)] ("alice".toList) = some 0 ∧
      0 < (([[]] : List (List Str))).length) ∧
    ((processFrame ("alice".toList) ("/msg bob hi".toList) ("T1".toList)
        ⟨[(("alice".toList), 0)], [[]], [], []⟩).store =
      ([] : Store) ++
        [⟨List.length ([] : Store) + 1, ("alice".toList), some (rustTrim ("bob".toList)),
          rustTrim ("hi".toList), ("T1".toList), true⟩] ∧
     (processFrame ("alice".toList) ("/msg bob hi".toList) ("T1".toList)
        ⟨[(("alice".toList), 0)], [[]], [], []⟩).queues.getD 0 [] =
      ([[]] : List (List Str)).getD 0 [] ++
        [ChatMessage.to_string (.System
          (("[Error] User '".toList) ++ rustTrim ("bob".toList) ++ ("' not found.".toList)))] ∧
     (∀ k, k ≠ 0 →
        (processFrame ("alice".toList) ("/msg bob hi".toList) ("T1".toList)
          ⟨[(("alice".toList), 0)], [[]], [], []⟩).queues.getD k [] =
        ([[]] : List (List Str)).getD k []) ∧
     (processFrame ("alice".toList) ("/msg bob hi".toList) ("T1".toList)
        ⟨[(("alice".toList), 0)], [[]], [], []⟩).registry = [(("alice".toList), 0)] ∧
     (processFrame ("alice".toList) ("/msg bob hi".toList) ("T1".toList)
        ⟨[(("alice".toList), 0)], [[]], [], []⟩).stdout = []) :=
  ⟨⟨by decide, by decide, by decide, by decide, by decide⟩,
   C2_absent_target_notice_and_persisted ("alice".toList) ("/msg bob hi".toList)
     ("T1".toList) ("bob".toList) ("hi".toList)
     ⟨[(("alice".toList), 0)], [[]], [], []⟩ 0
     (by decide) (by decide) (by decide) (by decide) (by decide)⟩

/-- Claim C5 counterexample: the router performs no emptiness validation.
An empty first frame IS accepted as a username (lines 104-110 consume any
text frame verbatim), and the frame "/msg bob   " (all-whitespace body)
constructs and persists a Private event whose content is empty after
trimming — refuting both non-emptiness parts of the claimed invariant. -/
theorem C5_counterexample :
    acceptUsername (some (.ok (.Text []))) = some [] ∧
    (processFrame ("alice".toList) ("/msg bob   ".toList) ("T1".toList)
        ⟨[(("alice".toList), 0)], [[]], [], []⟩).store =
      [⟨1, ("alice".toList), some ("bob".toList), [], ("T1".toList), true⟩] := by
  decide

/-- Claim C5 (corrected): what does hold of the constructed events is the
timestamp discipline — any record the router appends to the store carries
exactly the router-assigned receipt timestamp `now`, never client-supplied
data — while the non-emptiness invariant fails: the first frame is accepted
verbatim as the username with no validation at all (including the empty
string), and `/msg` frames with all-whitespace bodies construct Private
events with empty content. -/
theorem C5_router_timestamps_no_validation (name u text now : Str) (s : ServerState) :
    acceptUsername (some (.ok (.Text name))) = some name ∧
    ((processFrame u text now s).store = s.store ∨
      ∃ r, (processFrame u text now s).store = s.store ++ [r] ∧ r.timestamp = now) := by
  refine ⟨rfl, ?_⟩
  by_cases h : ("/msg ".toList).isPrefixOf text = true
  · rcases hsp : splitFirst (text.drop 5) ' ' with ⟨t0, ob⟩
    rcases ob with _ | b0
    · left
      unfold processFrame
      rw [h, hsp]
      simp
    · rcases hg : Registry.get s.registry (rustTrim t0) with _ | i
      · rcases hu : Registry.get s.registry u with _ | j
        · right
          refine ⟨⟨s.store.length + 1, u, some (rustTrim t0), rustTrim b0, now, true⟩, ?_, rfl⟩
          unfold processFrame
          rw [h, hsp]
          simp [hg, hu, ChatMessage.log_to_db, appendRecord]
        · right
          refine ⟨⟨s.store.length + 1, u, some (rustTrim t0), rustTrim b0, now, true⟩, ?_, rfl⟩
          rw [processFrame_private_absent u text now t0 b0 s j h hsp hg hu]
      · right
        refine ⟨⟨s.store.length + 1, u, some (rustTrim t0), rustTrim b0, now, true⟩, ?_, rfl⟩
        rw [processFrame_private_found u text now t0 b0 s i h hsp hg]
  · right
    have h' : ("/msg ".toList).isPrefixOf text = false := by
      cases hb : ("/msg ".toList).isPrefixOf text
      · rfl
      · exact absurd hb h
    refine ⟨⟨s.store.length + 1, u, none, text, now, false⟩, ?_, rfl⟩
    rw [processFrame_public u text now s h']

/-- After `insert`, looking up the inserted username returns the newly
registered handle (HashMap `insert` + `get` semantics). -/
theorem Registry_get_insert_self (reg : Registry) (u : Str) (c : Nat) :
    Registry.get (Registry.insert reg u c) u = some c := by
  unfold Registry.get Registry.insert
  rw [List.find?_append]
  have hnone : (reg.filter (fun p => !(p.1 == u))).find? (fun p => p.1 == u) = none := by
    rw [List.find?_eq_none]
    intro x hx
    have hm := (List.mem_filter.mp hx).2
    simp only [Bool.not_eq_eq_eq_not, Bool.not_true] at hm
    simp [hm]
  rw [hnone]
  simp [List.find?]

/-- The only entry of an `insert`ed registry under the inserted key is the
new one. -/
theorem Registry_insert_unique_entry (reg : Registry) (u : Str) (c : Nat) :
    (Registry.insert reg u c).filter (fun p => p.1 == u) = [(u, c)] := by
  unfold Registry.insert
  rw [List.filter_append, List.filter_filter]
  have hz : (reg.filter (fun a => (a.1 == u) && !(a.1 == u))) = [] := by
    have : (fun (a : Str × Nat) => (a.1 == u) && !(a.1 == u)) = fun _ => false := by
      funext a
      exact Bool.and_not_self _
    rw [this, List.filter_false]
  rw [hz]
  simp [List.filter]

/-- `insert` preserves distinctness of the registered usernames. -/
theorem Registry_insert_keys_nodup (reg : Registry) (u : Str) (c : Nat)
    (h : (reg.map Prod.fst).Nodup) :
    ((Registry.insert reg u c).map Prod.fst).Nodup := by
  unfold Registry.insert
  rw [List.map_append, List.nodup_append]
  refine ⟨List.Nodup.sublist (List.Sublist.map Prod.fst (List.filter_sublist reg)) h,
          List.nodup_singleton _, ?_⟩
  rw [show List.map Prod.fst [(u, c)] = [u] from rfl, List.disjoint_singleton]
  intro hmem
  rcases List.mem_map.mp hmem with ⟨p, hp, hfst⟩
  have hm := (List.mem_filter.mp hp).2
  simp only [Bool.not_eq_eq_eq_not, Bool.not_true, beq_eq_false_iff_ne, ne_eq] at hm
  exact hm hfst

/-- Claim C8 (confirmed): after `Register(u, c1)` then `Register(u, c2)`,
`Lookup(u)` resolves to `c2` only; `Register` is total (it never fails), the
map keeps at most one entry per username (distinct keys are preserved and
the only entry under `u` is `(u, c2)`). -/
theorem C8_second_registration_wins (reg : Registry) (u : Str) (c1 c2 : Nat)
    (hnd : (reg.map Prod.fst).Nodup) :
    Registry.get (Registry.insert (Registry.insert reg u c1) u c2) u = some c2 ∧
    ((Registry.insert (Registry.insert reg u c1) u c2).map Prod.fst).Nodup ∧
    (Registry.insert (Registry.insert reg u c1) u c2).filter (fun p => p.1 == u) =
      [(u, c2)] := by
  exact ⟨Registry_get_insert_self _ u c2,
         Registry_insert_keys_nodup _ u c2 (Registry_insert_keys_nodup reg u c1 hnd),
         Registry_insert_unique_entry _ u c2⟩

/-- Witness for C8: two sequential registrations of "alice" over a registry
already holding "bob". -/
theorem C8_witness :
    (([(("bob".toList), 7)] : Registry).map Prod.fst).Nodup ∧
    (Registry.get (Registry.insert (Registry.insert [(("bob".toList), 7)]
        ("alice".toList) 1) ("alice".toList) 2) ("alice".toList) = some 2 ∧
     ((Registry.insert (Registry.insert [(("bob".toList), 7)] ("alice".toList) 1)
        ("alice".toList) 2).map Prod.fst).Nodup ∧
     (Registry.insert (Registry.insert [(("bob".toList), 7)] ("alice".toList) 1)
        ("alice".toList) 2).filter (fun p => p.1 == ("alice".toList)) =
       [(("alice".toList), 2)]) :=
  ⟨by decide,
   C8_second_registration_wins [(("bob".toList), 7)] ("alice".toList) 1 2 (by decide)⟩

/-- Length of a store after a sequence of inserts. -/
theorem foldl_appendRecord_length (ds : List RecordData) (st : Store) :
    (ds.foldl appendRecord st).length = st.length + ds.length := by
  induction ds generalizing st with
  | nil => simp
  | cons d ds ih =>
      rw [List.foldl_cons, ih]
      simp [appendRecord]
      omega

/-- The ids of a store after a sequence of inserts: the auto-increment
assigns consecutive ids continuing from the current length. -/
theorem foldl_appendRecord_map_id (ds : List RecordData) (st : Store) :
    (ds.foldl appendRecord st).map (fun r => r.id) =
      st.map (fun r => r.id) ++ List.range' (st.length + 1) ds.length := by
  induction ds generalizing st with
  | nil => simp
  | cons d ds ih =>
      rw [List.foldl_cons, ih, show (d :: ds).length = ds.length + 1 from rfl,
        List.range'_succ]
      simp [appendRecord]

/-- The non-id data of a store after a sequence of inserts is exactly the
inserted data, in order. -/
theorem foldl_appendRecord_map_data (ds : List RecordData) (st : Store) :
    (ds.foldl appendRecord st).map recordData = st.map recordData ++ ds := by
  induction ds generalizing st with
  | nil => simp
  | cons d ds ih =>
      rw [List.foldl_cons, ih]
      simp [appendRecord, recordData]

/-- Claim C7 (confirmed): after inserting 15 records into a fresh store,
`/history`'s query (`ORDER BY id DESC LIMIT 10`) returns exactly the 15th,
14th, …, 6th inserted records in that order — ids `[15, …, 6]`, data the
last ten inserted data in reverse insertion order — and in general the query
returns at most 10 records, ids strictly descending. -/
theorem C7_recent_history_last_ten (ds : List RecordData) (h : ds.length = 15) :
    recentHistory (insertAll ds) = ((insertAll ds).drop 5).reverse ∧
    (recentHistory (insertAll ds)).map (fun r => r.id) =
      [15, 14, 13, 12, 11, 10, 9, 8, 7, 6] ∧
    (recentHistory (insertAll ds)).map recordData = (ds.drop 5).reverse ∧
    (∀ st : Store, (recentHistory st).length ≤ 10) ∧
    ((recentHistory (insertAll ds)).map (fun r => r.id)).Pairwise (· > ·) := by
  have hlen : (insertAll ds).length = 15 := by
    unfold insertAll
    rw [foldl_appendRecord_length]
    simpa using h
  have hids : (insertAll ds).map (fun r => r.id) = List.range' 1 15 := by
    unfold insertAll
    rw [foldl_appendRecord_map_id]
    simp [h]
  have hdata : (insertAll ds).map recordData = ds := by
    unfold insertAll
    rw [foldl_appendRecord_map_data]
    simp
  have h1 : recentHistory (insertAll ds) = ((insertAll ds).drop 5).reverse := by
    unfold recentHistory
    rw [List.take_reverse, hlen]
  have h2 : (recentHistory (insertAll ds)).map (fun r => r.id) =
      [15, 14, 13, 12, 11, 10, 9, 8, 7, 6] := by
    rw [h1, List.map_reverse, List.map_drop, hids]
    decide
  refine ⟨h1, h2, ?_, ?_, ?_⟩
  · rw [h1, List.map_reverse, List.map_drop, hdata]
  · intro st
    unfold recentHistory
    exact List.length_take_le 10 st.reverse
  · rw [h2]
    decide

/-- Witness for C7: fifteen identical record data inserted into a fresh
store. -/
theorem C7_witness :
    (List.replicate 15
        (⟨("a".toList), none, ("c".toList), ("t".toList), false⟩ : RecordData)).length = 15 ∧
    (recentHistory (insertAll (List.replicate 15
        (⟨("a".toList), none, ("c".toList), ("t".toList), false⟩ : RecordData))) =
      ((insertAll (List.replicate 15
        (⟨("a".toList), none, ("c".toList), ("t".toList), false⟩ : RecordData))).drop 5).reverse ∧
     (recentHistory (insertAll (List.replicate 15
        (⟨("a".toList), none, ("c".toList), ("t".toList), false⟩ : RecordData)))).map
          (fun r => r.id) = [15, 14, 13, 12, 11, 10, 9, 8, 7, 6] ∧
     (recentHistory (insertAll (List.replicate 15
        (⟨("a".toList), none, ("c".toList), ("t".toList), false⟩ : RecordData)))).map
          recordData =
       ((List.replicate 15
        (⟨("a".toList), none, ("c".toList), ("t".toList), false⟩ : RecordData)).drop 5).reverse ∧
     (∀ st : Store, (recentHistory st).length ≤ 10) ∧
     ((recentHistory (insertAll (List.replicate 15
        (⟨("a".toList), none, ("c".toList), ("t".toList), false⟩ : RecordData)))).map
          (fun r => r.id)).Pairwise (· > ·)) :=
  ⟨by decide,
   C7_recent_history_last_ten
     (List.replicate 15 (⟨("a".toList), none, ("c".toList), ("t".toList), false⟩ : RecordData))
     (by decide)⟩

/-- The pattern "%" alone matches every string (given sufficient fuel). -/
theorem likeMatchF_pct_only : ∀ (s : Str) (fuel : Nat), s.length + 1 < fuel →
    likeMatchF fuel ['%'] s = true := by
  intro s
  induction s with
  | nil =>
      intro fuel h
      cases fuel with
      | zero => omega
      | succ f =>
          cases f with
          | zero => simp only [List.length_nil] at h; omega
          | succ g => simp [likeMatchF]
  | cons c s2 ih =>
      intro fuel h
      cases fuel with
      | zero => omega
      | succ f =>
          have h2 : s2.length + 1 < f := by
            simp only [List.length_cons] at h
            omega
          simp [likeMatchF, ih f h2]

/-- A pattern `kw ++ "%"` with `kw` wildcard-free matches exactly the strings
with an ASCII-case-insensitive copy of `kw` as a prefix. -/
theorem likeMatchF_tail_pct : ∀ (kw : Str) (fuel : Nat) (s : Str),
    '%' ∉ kw → '_' ∉ kw → (kw ++ ['%']).length + s.length < fuel →
    (likeMatchF fuel (kw ++ ['%']) s = true ↔
      ∃ a b, s = a ++ b ∧ kw.map asciiLower = a.map asciiLower) := by
  intro kw
  induction kw with
  | nil =>
      intro fuel s _ _ h
      constructor
      · intro _
        exact ⟨[], s, rfl, rfl⟩
      · intro _
        apply likeMatchF_pct_only s fuel
        simp only [List.nil_append, List.length_cons, List.length_nil] at h
        omega
  | cons k kw2 ih =>
      intro fuel s hp hu h
      have hp1 : ¬ (k = '%') := fun he => hp (by rw [he]; exact List.mem_cons_self _ _)
      have hp2 : '%' ∉ kw2 := fun hm => hp (List.mem_cons_of_mem _ hm)
      have hu1 : ¬ (k = '_') := fun he => hu (by rw [he]; exact List.mem_cons_self _ _)
      have hu2 : '_' ∉ kw2 := fun hm => hu (List.mem_cons_of_mem _ hm)
      cases fuel with
      | zero => omega
      | succ f =>
          cases s with
          | nil =>
              constructor
              · intro hlm
                rw [show ((k :: kw2) ++ ['%']) = k :: (kw2 ++ ['%']) from rfl] at hlm
                simp [likeMatchF, hp1] at hlm
              · rintro ⟨a, b, hab, hmap⟩
                rcases List.append_eq_nil.mp hab.symm with ⟨ha, _⟩
                rw [ha] at hmap
                simp at hmap
          | cons c s2 =>
              have hstep : likeMatchF (f + 1) ((k :: kw2) ++ ['%']) (c :: s2) =
                  ((k == '_' || asciiLower k == asciiLower c) &&
                    likeMatchF f (kw2 ++ ['%']) s2) := by
                rw [show ((k :: kw2) ++ ['%']) = k :: (kw2 ++ ['%']) from rfl]
                simp [likeMatchF, hp1]
              rw [hstep, Bool.and_eq_true, Bool.or_eq_true]
              have hbound : (kw2 ++ ['%']).length + s2.length < f := by
                simp only [List.length_append, List.length_cons, List.length_nil] at h ⊢
                omega
              rw [ih f s2 hp2 hu2 hbound]
              constructor
              · rintro ⟨hk, a, b, hab, hmap⟩
                rcases hk with hk | hk
                · exact absurd (by simpa using hk) hu1
                · refine ⟨c :: a, b, by rw [hab]; rfl, ?_⟩
                  simp only [List.map_cons]
                  rw [hmap]
                  have : asciiLower k = asciiLower c := by simpa using hk
                  rw [this]
              · rintro ⟨a, b, hab, hmap⟩
                rcases a with _ | ⟨x, a2⟩
                · simp at hmap
                · have hx : c = x ∧ s2 = a2 ++ b := by
                    rw [show ((x :: a2) ++ b) = x :: (a2 ++ b) from rfl] at hab
                    exact ⟨(List.cons.injEq _ _ _ _).mp hab |>.1,
                           (List.cons.injEq _ _ _ _).mp hab |>.2⟩
                  simp only [List.map_cons, List.cons.injEq] at hmap
                  refine ⟨Or.inr ?_, a2, b, hx.2, hmap.2⟩
                  rw [hmap.1, hx.1]
                  simp

/-- A pattern `"%" ++ kw ++ "%"` with `kw` wildcard-free matches exactly the
strings containing an ASCII-case-insensitive copy of `kw` as a contiguous
substring. -/
theorem likeMatchF_pct_pct : ∀ (s : Str) (fuel : Nat) (kw : Str),
    '%' ∉ kw → '_' ∉ kw → ('%' :: (kw ++ ['%'])).length + s.length < fuel →
    (likeMatchF fuel ('%' :: (kw ++ ['%'])) s = true ↔
      ∃ u v, s.map asciiLower = u ++ kw.map asciiLower ++ v) := by
  intro s
  induction s with
  | nil =>
      intro fuel kw hp hu h
      cases fuel with
      | zero => omega
      | succ f =>
          have hstep : likeMatchF (f + 1) ('%' :: (kw ++ ['%'])) [] =
              likeMatchF f (kw ++ ['%']) [] := by
            simp [likeMatchF]
          have hbound : (kw ++ ['%']).length + ([] : Str).length < f := by
            simp only [List.length_append, List.length_cons, List.length_nil] at h ⊢
            omega
          rw [hstep, likeMatchF_tail_pct kw f [] hp hu hbound]
          constructor
          · rintro ⟨a, b, hab, hmap⟩
            rcases List.append_eq_nil.mp hab.symm with ⟨ha, _⟩
            rw [ha] at hmap
            simp only [List.map_nil] at hmap
            exact ⟨[], [], by simp [hmap]⟩
          · rintro ⟨u, v, huv⟩
            simp only [List.map_nil] at huv
            rcases List.append_eq_nil.mp huv.symm with ⟨hu1, _⟩
            rcases List.append_eq_nil.mp hu1 with ⟨_, h2⟩
            exact ⟨[], [], rfl, by simp [h2]⟩
  | cons c s2 ih =>
      intro fuel kw hp hu h
      cases fuel with
      | zero => omega
      | succ f =>
          have hstep : likeMatchF (f + 1) ('%' :: (kw ++ ['%'])) (c :: s2) =
              (likeMatchF f (kw ++ ['%']) (c :: s2) ||
                likeMatchF f ('%' :: (kw ++ ['%'])) s2) := by
            simp [likeMatchF]
          have hbound1 : (kw ++ ['%']).length + (c :: s2).length < f := by
            simp only [List.length_append, List.length_cons, List.length_nil] at h ⊢
            omega
          have hbound2 : ('%' :: (kw ++ ['%'])).length + s2.length < f := by
            simp only [List.length_append, List.length_cons, List.length_nil] at h ⊢
            omega
          rw [hstep, Bool.or_eq_true, likeMatchF_tail_pct kw f (c :: s2) hp hu hbound1,
              ih f kw hp hu hbound2]
          constructor
          · rintro (⟨a, b, hab, hmap⟩ | ⟨u, v, huv⟩)
            · refine ⟨[], b.map asciiLower, ?_⟩
              rw [hab]
              simp only [List.map_append, List.nil_append]
              rw [hmap]
            · refine ⟨asciiLower c :: u, v, ?_⟩
              simp [huv]
          · rintro ⟨u, v, huv⟩
            rcases u with _ | ⟨x, u2⟩
            · left
              refine ⟨(c :: s2).take kw.length, (c :: s2).drop kw.length,
                      (List.take_append_drop _ _).symm, ?_⟩
              rw [List.map_take, huv]
              simp only [List.nil_append]
              rw [show kw.length = (kw.map asciiLower).length from
                    (List.length_map kw asciiLower).symm]
              exact (List.take_left _ _).symm
            · right
              simp only [List.map_cons, List.cons_append, List.cons.injEq] at huv
              exact ⟨u2, v, huv.2⟩

/-- The `LIKE '%<kw>%'` predicate used by the search query, characterised for
wildcard-free keywords: it holds exactly when an ASCII-case-insensitive copy
of the keyword occurs contiguously in the string. -/
theorem likeMatch_pct_pct_iff (kw s : Str) (hp : '%' ∉ kw) (hu : '_' ∉ kw) :
    (likeMatch ('%' :: (kw ++ ['%'])) s = true ↔
      ∃ u v, s.map asciiLower = u ++ kw.map asciiLower ++ v) := by
  unfold likeMatch
  exact likeMatchF_pct_pct s _ kw hp hu (Nat.lt_succ_self _)

/-- Claim C6 counterexample: the keyword is interpolated into the `LIKE`
pattern unescaped, so its wildcards are interpreted. Searching for the
keyword "_" over a store whose only record has content "a" returns that
record (`LIKE '%_%'` matches any non-empty content), although "a" does not
contain "_" as a substring — refuting "returns only records whose content
contains the keyword". -/
theorem C6_counterexample :
    searchMessages [⟨1, ("alice".toList), none, ("a".toList), ("t".toList), false⟩]
        ("_".toList) =
      [⟨1, ("alice".toList), none, ("a".toList), ("t".toList), false⟩] ∧
    ¬ ∃ u v : Str, ("a".toList) = u ++ ("_".toList) ++ v := by
  constructor
  · decide
  · rintro ⟨u, v, h⟩
    rcases u with _ | ⟨x, u2⟩
    · simp only [List.nil_append, List.singleton_append] at h
      injection h with h1 h2
      exact absurd h1 (by decide)
    · simp only [List.cons_append] at h
      injection h with h1 h2
      rcases List.append_eq_nil.mp h2.symm with ⟨ha, _⟩
      rcases List.append_eq_nil.mp ha with ⟨_, hb⟩
      exact absurd hb (by decide)

/-- Claim C6 (corrected): for keywords free of the `LIKE` wildcards `%` and
`_`, the `/search` query returns only records whose content contains the
keyword as an ASCII-case-insensitive substring (SQLite's default `LIKE` is
case-insensitive for ASCII), most recent first (strictly descending ids,
given the store's ids are ascending), at most 10 of them, and returns the
empty sequence — not an error — when no record matches. -/
theorem C6_search_substring_matches (st : Store) (kw : Str)
    (hp : '%' ∉ kw) (hu : '_' ∉ kw)
    (hsorted : (st.map (fun r => r.id)).Pairwise (· < ·)) :
    (∀ r ∈ searchMessages st kw,
       ∃ u v, r.content.map asciiLower = u ++ kw.map asciiLower ++ v) ∧
    ((searchMessages st kw).map (fun r => r.id)).Pairwise (· > ·) ∧
    (searchMessages st kw).length ≤ 10 ∧
    ((∀ r ∈ st, ¬ ∃ u v, r.content.map asciiLower = u ++ kw.map asciiLower ++ v) →
      searchMessages st kw = []) := by
  refine ⟨?_, ?_, ?_, ?_⟩
  · intro r hr
    have hr1 : r ∈ (st.filter (fun r => likeMatch ('%' :: (kw ++ ['%'])) r.content)).reverse :=
      (List.take_sublist _ _).subset hr
    have hr2 := List.mem_reverse.mp hr1
    have hr3 := (List.mem_filter.mp hr2).2
    exact (likeMatch_pct_pct_iff kw r.content hp hu).mp hr3
  · have h1 : ((st.filter (fun r => likeMatch ('%' :: (kw ++ ['%'])) r.content)).map
        (fun r => r.id)).Pairwise (· < ·) :=
      List.Pairwise.sublist (List.Sublist.map _ (List.filter_sublist st)) hsorted
    have h2 : (((st.filter (fun r => likeMatch ('%' :: (kw ++ ['%'])) r.content)).reverse).map
        (fun r => r.id)).Pairwise (· > ·) := by
      rw [List.map_reverse]
      exact List.pairwise_reverse.mpr h1
    exact List.Pairwise.sublist (List.Sublist.map _ (List.take_sublist _ _)) h2
  · exact List.length_take_le _ _
  · intro hnone
    unfold searchMessages
    have hfil : st.filter (fun r => likeMatch ('%' :: (kw ++ ['%'])) r.content) = [] := by
      rw [List.filter_eq_nil_iff]
      intro r hr hl
      exact hnone r hr ((likeMatch_pct_pct_iff kw r.content hp hu).mp hl)
    rw [hfil]
    rfl

/-- Witness for C6: keyword "foo" over a two-record store; the first record's
content "xFOOy" matches case-insensitively, the second ("bar") does not. -/
theorem C6_witness :
    ('%' ∉ ("foo".toList) ∧ '_' ∉ ("foo".toList) ∧
      (([⟨1, ("a".toList), none, ("xFOOy".toList), ("t".toList), false⟩,
         ⟨2, ("b".toList), none, ("bar".toList), ("t".toList), false⟩] : Store).map
        (fun r => r.id)).Pairwise (· < ·)) ∧
    ((∀ r ∈ searchMessages
        [⟨1, ("a".toList), none, ("xFOOy".toList), ("t".toList), false⟩,
         ⟨2, ("b".toList), none, ("bar".toList), ("t".toList), false⟩] ("foo".toList),
        ∃ u v, r.content.map asciiLower = u ++ ("foo".toList).map asciiLower ++ v) ∧
     ((searchMessages
        [⟨1, ("a".toList), none, ("xFOOy".toList), ("t".toList), false⟩,
         ⟨2, ("b".toList), none, ("bar".toList), ("t".toList), false⟩]
        ("foo".toList)).map (fun r => r.id)).Pairwise (· > ·) ∧
     (searchMessages
        [⟨1, ("a".toList), none, ("xFOOy".toList), ("t".toList), false⟩,
         ⟨2, ("b".toList), none, ("bar".toList), ("t".toList), false⟩]
        ("foo".toList)).length ≤ 10 ∧
     ((∀ r ∈ ([⟨1, ("a".toList), none, ("xFOOy".toList), ("t".toList), false⟩,
         ⟨2, ("b".toList), none, ("bar".toList), ("t".toList), false⟩] : Store),
        ¬ ∃ u v, r.content.map asciiLower = u ++ ("foo".toList).map asciiLower ++ v) →
      searchMessages
        [⟨1, ("a".toList), none, ("xFOOy".toList), ("t".toList), false⟩,
         ⟨2, ("b".toList), none, ("bar".toList), ("t".toList), false⟩]
        ("foo".toList) = [])) :=
  ⟨⟨by decide, by decide, by decide⟩,
   C6_search_substring_matches
     [⟨1, ("a".toList), none, ("xFOOy".toList), ("t".toList), false⟩,
      ⟨2, ("b".toList), none, ("bar".toList), ("t".toList), false⟩]
     ("foo".toList) (by decide) (by decide) (by decide)⟩
